import Mathlib

set_option maxRecDepth 100000

/-!
Shallow embedding of `src/restock_checker.py` (pokemon-restock-bot).

Modelling conventions:
* Python strings are Lean `String`s; character-level operations (strip,
  lower, substring search, line splitting) are defined explicitly over
  `List Char` so that everything is executable.
* The geodesic distance call (`geopy.distance.geodesic(USER_COORD, c).miles`)
  is an external collaborator; it is abstracted as a parameter
  `dist : Coord → ℚ` giving the distance in miles from `USER_COORD`.
* Wall-clock time (`time.time()`) is abstracted as a rational number
  supplied per event; one timestamp is used for both the cooldown check and
  the `mark_discord_sent` write of a single `send_discord_embeds` call.
* HTTP fetching plus HTML parsing (`get_soup`) is abstracted as an
  environment `env : String → Except String Soup`: a `Soup` holds the
  element selections the per-store parsers read; `Except.error` stands for
  any exception raised while fetching or parsing, which `safe_parse`
  (and the `try` in `fetch_store`) turns into the empty product list.
* Files are modelled by their contents: the seen file as
  `Option (List Char)` (`none` = file absent) and the last-sent file as
  `Option ℤ` (`none` = file absent).  Reading a file in text mode applies
  Python's universal-newline translation (`univNewlines`); writing on the
  program's POSIX platform performs no translation.
-/

/-! ### Character and string helpers -/

/-- Python whitespace: the characters for which `str.isspace()` holds,
which is exactly the set `str.strip()` removes — ASCII `\t\n\v\f\r`,
the separators U+001C–U+001F, space, NEL U+0085, NBSP U+00A0, and the
Unicode space/line/paragraph separators. -/
def isPySpace (c : Char) : Bool :=
  (9 ≤ c.toNat && c.toNat ≤ 13) || (28 ≤ c.toNat && c.toNat ≤ 31) ||
  c.toNat = 32 || c.toNat = 0x85 || c.toNat = 0xa0 || c.toNat = 0x1680 ||
  (0x2000 ≤ c.toNat && c.toNat ≤ 0x200a) || c.toNat = 0x2028 ||
  c.toNat = 0x2029 || c.toNat = 0x202f || c.toNat = 0x205f || c.toNat = 0x3000

/-- Python `str.strip()` on a character list: drop whitespace from both ends. -/
def pyStrip (s : List Char) : List Char :=
  ((s.dropWhile isPySpace).reverse.dropWhile isPySpace).reverse

/-- Python `str.strip()` on a `String`. -/
def pyStripS (s : String) : String :=
  String.mk (pyStrip s.data)

/-- ASCII lower-casing of one character (all keywords in the program are ASCII). -/
def charLower (c : Char) : Char :=
  if 'A' ≤ c ∧ c ≤ 'Z' then Char.ofNat (c.toNat + 32) else c

/-- Python `str.lower()` (restricted to ASCII letters, which covers every
keyword the program compares against). -/
def lowerS (s : String) : String :=
  String.mk (s.data.map charLower)

/-- Does `pat` occur as a prefix of `hay`? -/
def isPrefixL : List Char → List Char → Bool
  | [], _ => true
  | _ :: _, [] => false
  | c :: cs, d :: ds => c = d && isPrefixL cs ds

/-- Does `pat` occur as a contiguous substring of the second list? -/
def containsSub (pat : List Char) : List Char → Bool
  | [] => isPrefixL pat []
  | c :: cs => isPrefixL pat (c :: cs) || containsSub pat cs

/-- Python `pat in hay` substring test on strings. -/
def strContains (hay pat : String) : Bool :=
  containsSub pat.data hay.data

/-- Python `s.startswith(pre)`. -/
def startsWithS (s pre : String) : Bool :=
  isPrefixL pre.data s.data

/-! ### Configuration constants (from the CONFIG / KEYWORDS sections) -/

/-- Coordinates are pairs of rationals (latitude, longitude). -/
abbrev Coord := ℚ × ℚ

def USER_COORD : Coord := (53494/1000, -(934/1000))

def USER_LOCATION_LABEL : String := "DN9"

def DEFAULT_RADIUS_MILES : ℚ := 30

def DISCORD_COOLDOWN_SECONDS : ℤ := 1800

def SEALED_KEYWORDS : List String :=
  ["booster", "elite trainer box", "etb", "tin",
   "collection", "blister", "trading card"]

def IGNORE_KEYWORDS : List String :=
  ["single", "guide", "book", "magazine", "proxy"]

def STORE_COLORS : List (String × Nat) :=
  [("Smyths Toys", 0x1E90FF),
   ("The Entertainer", 0x32CD32),
   ("One Stop", 0xFFD700),
   ("WHSmith", 0x8A2BE2),
   ("Forbidden Planet", 0xFF4500),
   ("Waterstones", 0x00CED1),
   ("CEX", 0xFF69B4),
   ("Amazon UK", 0xFF9900),
   ("eBay UK", 0xE53238),
   ("ASDA", 0x006400),
   ("Tesco", 0x0051BA),
   ("Morrisons", 0xFFD700),
   ("Sainsbury\x27s", 0xFFA500),
   ("Aldi", 0x003087),
   ("B&M", 0xFF0000)]

/-- Python `dict.get(k, d)` on an association list. -/
def dictGet (l : List (String × Nat)) (k : String) (d : Nat) : Nat :=
  match l.find? (fun kv => kv.1 == k) with
  | some kv => kv.2
  | none => d

/-! ### Helper predicates (`is_sealed`, `within_distance`, `looks_in_stock`) -/

/-- Source `is_sealed(name)`: the lowercased name contains a sealed keyword and no
ignore keyword. -/
def is_sealed (name : String) : Bool :=
  let n := lowerS name
  (SEALED_KEYWORDS.any (fun k => strContains n k)) &&
    !(IGNORE_KEYWORDS.any (fun i => strContains n i))

/-- Source `within_distance(store_coord, radius)`; `dist` abstracts
`geodesic(USER_COORD, ·).miles`. -/
def within_distance (dist : Coord → ℚ) (store_coord : Coord) (radius : ℚ) : Bool :=
  decide (dist store_coord ≤ radius)

def OUT_OF_STOCK_PHRASES : List String :=
  ["out of stock", "sold out", "unavailable", "no longer available"]

/-- Source `looks_in_stock(text)`: the lowercased text contains none of the
out-of-stock phrases. -/
def looks_in_stock (text : String) : Bool :=
  let t := lowerS text
  !(OUT_OF_STOCK_PHRASES.any (fun x => strContains t x))

/-! ### Discord cooldown (`can_send_discord`, `mark_discord_sent`,
`send_discord_embeds`) -/

/-- A Discord embed as built by `run` (footer is its `text` field). -/
structure Embed where
  title : String
  description : String
  color : Nat
  footerText : String
deriving DecidableEq

/-- Source `can_send_discord()`: true when the last-sent file is absent or at least
`DISCORD_COOLDOWN_SECONDS` have elapsed since the recorded timestamp. -/
def can_send_discord (now : ℤ) (lastSent : Option ℤ) : Bool :=
  match lastSent with
  | none => true
  | some last => decide (now - last ≥ DISCORD_COOLDOWN_SECONDS)

/-- Source `send_discord_embeds(embeds)`: returns the POSTed payload (if any) and
the new contents of the last-sent file.  A successful POST records `now`
(`mark_discord_sent`). -/
def send_discord_embeds (now : ℤ) (lastSent : Option ℤ) (embeds : List Embed) :
    Option (List Embed) × Option ℤ :=
  if can_send_discord now lastSent then (some embeds, some now) else (none, lastSent)

/-- A sequence of invocations of `send_discord_embeds` at given times with
given payloads, starting from a last-sent file state; returns the times at
which a POST was actually performed. -/
def runTrace (lastSent : Option ℤ) : List (ℤ × List Embed) → List ℤ
  | [] => []
  | e :: rest =>
    match send_discord_embeds e.1 lastSent e.2 with
    | (some _, st) => e.1 :: runTrace st rest
    | (none, st) => runTrace st rest

/-! ### Seen-file persistence (`load_seen_items`, `save_seen_items`) -/

/-- Split a character list at every newline; chunks do not contain the
newline terminators, and a chunk follows every newline (so the result is
always non-empty and ends with `[]` iff the input ends with a newline or is
empty). -/
def splitNl : List Char → List (List Char)
  | [] => [[]]
  | c :: cs =>
    if c = '\n' then [] :: splitNl cs
    else
      match splitNl cs with
      | [] => [[c]]
      | l :: ls => (c :: l) :: ls

/-- The lines Python sees when iterating over a text file whose content has
already gone through universal-newline translation, minus their newline
terminators: every chunk of `splitNl` except a final empty chunk. -/
def pyLines (s : List Char) : List (List Char) :=
  if (splitNl s).getLast? = some [] then (splitNl s).dropLast else splitNl s

/-- Universal-newline translation performed by Python when reading a file
in text mode (the default `newline=None` of `open`): `\r\n` and a lone
`\r` both become `\n`. -/
def univNewlines : List Char → List Char
  | [] => []
  | c :: cs =>
    if c = '\r' then
      match cs with
      | [] => ['\n']
      | d :: rest =>
        if d = '\n' then '\n' :: univNewlines rest
        else '\n' :: univNewlines (d :: rest)
    else c :: univNewlines cs

/-- Source `load_seen_items()`: empty set if the file is absent, otherwise
the set of stripped lines of the file as read in text mode, i.e. after
universal-newline translation. -/
def load_seen_items (file : Option (List Char)) : Finset String :=
  match file with
  | none => ∅
  | some content =>
    ((pyLines (univNewlines content)).map (fun l => String.mk (pyStrip l))).toFinset

/-- The elements of a finite set of strings in ascending order (Python
`sorted(items)`), computed by insertion sort so that it evaluates. -/
def sortedSeen (items : Finset String) : List String :=
  Quotient.lift (fun l : List String => List.insertionSort (· ≤ ·) l)
    (fun a b hab =>
      have hp : a.Perm b := hab
      List.eq_of_perm_of_sorted
        ((List.perm_insertionSort _ a).trans (hp.trans (List.perm_insertionSort _ b).symm))
        (List.sorted_insertionSort _ a) (List.sorted_insertionSort _ b))
    items.val

/-- Source `save_seen_items(items)`: the file content written, i.e. every item in
sorted order, each followed by a newline. -/
def save_seen_items (items : Finset String) : List Char :=
  ((sortedSeen items).map (fun s => s.data ++ ['\n'])).flatten

/-! ### `safe_parse` and `product_emoji` -/

/-- A product dictionary appended by a parser. -/
structure Product where
  name : String
  price : String
  link : String
deriving DecidableEq

/-- Source `safe_parse(parser, url)`: the parser result, or `[]` if the parser
raised (the `Except.error` case). -/
def safe_parse (res : Except String (List Product)) : List Product :=
  match res with
  | Except.ok ps => ps
  | Except.error _ => []

/-- Source `product_emoji(name)`. -/
def product_emoji (name : String) : String :=
  let n := lowerS name
  if strContains n "booster" then "🎴"
  else if strContains n "elite trainer box" || strContains n "etb" then "📦"
  else if strContains n "tin" || strContains n "collection" then "🛍️"
  else if strContains n "blister" || strContains n "trading card" then "🃏"
  else "✨"

/-! ### HTML abstraction and per-store parsers

A `Soup` records, per CSS selector the program uses, the elements that
`BeautifulSoup` would return for the fetched page.  A `Tag` carries the
text and href the program reads off an element; an `Anchor` additionally
records an absent `href` attribute (`a.get("href")` returning `None`) and
the price text found near the anchor (`parse_onestop`'s parent lookup). -/

structure Tag where
  text : String
  href : String
deriving DecidableEq

structure Anchor where
  text : String
  href : Option String
  parentPrice : Option String
deriving DecidableEq

/-- A `div.product-tile` of the Smyths page: `h2.product-name`,
`span.price` and `a` sub-elements, each possibly absent. -/
structure Tile where
  name_el : Option Tag
  price_el : Option Tag
  link_el : Option Tag
deriving DecidableEq

/-- A `div.product-item` of the Entertainer page: `a.product-name` and
`span.value` sub-elements. -/
structure Item where
  name_el : Option Tag
  price_el : Option Tag
deriving DecidableEq

structure Soup where
  productTiles : List Tile := []
  productItems : List Item := []
  anchors : List Anchor := []
  h3s : List Tag := []
  productTitles : List Tag := []
  titleAnchors : List Anchor := []
deriving DecidableEq

/-- Source `parse_smyths(url)` on a fetched soup. -/
def parse_smyths (_url : String) (soup : Soup) : List Product :=
  soup.productTiles.filterMap (fun tile =>
    match tile.name_el, tile.link_el with
    | some nameEl, some linkEl =>
      let name := pyStripS nameEl.text
      if is_sealed name = false then none
      else some { name := name,
                  price := match tile.price_el with
                           | some priceEl => pyStripS priceEl.text
                           | none => "Price unavailable",
                  link := "https://www.smythstoys.com" ++ linkEl.href }
    | _, _ => none)

/-- Source `parse_entertainer(url)` on a fetched soup. -/
def parse_entertainer (_url : String) (soup : Soup) : List Product :=
  soup.productItems.filterMap (fun item =>
    match item.name_el with
    | none => none
    | some nameEl =>
      let name := pyStripS nameEl.text
      if is_sealed name = false then none
      else some { name := name,
                  price := match item.price_el with
                           | some priceEl => pyStripS priceEl.text
                           | none => "Price unavailable",
                  link := "https://www.thetoyshop.com" ++ nameEl.href })

/-- Source `parse_onestop(url)` on a fetched soup; `get_text(strip=True)` is
modelled as stripping the anchor text. -/
def parse_onestop (_url : String) (soup : Soup) : List Product :=
  soup.anchors.filterMap (fun a =>
    let name := pyStripS a.text
    match a.href with
    | none => none
    | some link =>
      if name = "" || link = "" || strContains (lowerS name) "pokemon" = false ||
          is_sealed name = false then none
      else
        let price := match a.parentPrice with
                     | some priceText => pyStripS priceText
                     | none => "Check local store"
        let full_link := if startsWithS link "http" then link
                         else "https://www.onestop.co.uk" ++ link
        some { name := name, price := price, link := full_link })

/-- Source `parse_whsmith(url)` on a fetched soup (all `h3` elements). -/
def parse_whsmith (url : String) (soup : Soup) : List Product :=
  soup.h3s.filterMap (fun p =>
    let name := pyStripS p.text
    if is_sealed name = false then none
    else some { name := name, price := "Check website", link := url })

/-- Source `parse_forbidden_planet(url)` on a fetched soup (`h3.product-title`). -/
def parse_forbidden_planet (url : String) (soup : Soup) : List Product :=
  soup.productTitles.filterMap (fun p =>
    let name := pyStripS p.text
    if is_sealed name = false then none
    else some { name := name, price := "Check website", link := url })

/-- Source `parse_waterstones(url)` on a fetched soup (`a.title` anchors). -/
def parse_waterstones (url : String) (soup : Soup) : List Product :=
  soup.titleAnchors.filterMap (fun a =>
    let name := pyStripS a.text
    if is_sealed name = false then none
    else
      let link := match a.href with
                  | some h => if h = "" then url else h
                  | none => url
      let full_link := if startsWithS link "http" then link
                       else "https://www.waterstones.com" ++ link
      some { name := name, price := "Check website", link := full_link })

/-- Source `parse_cex(url)` on a fetched soup (all `h3` elements). -/
def parse_cex (url : String) (soup : Soup) : List Product :=
  soup.h3s.filterMap (fun p =>
    let name := pyStripS p.text
    if is_sealed name = false then none
    else some { name := name, price := "Check website", link := url })

/-- Source `generic_parser(url)` from the source, on a fetched soup (all `a`
elements). -/
def parse_generic (url : String) (soup : Soup) : List Product :=
  soup.anchors.filterMap (fun a =>
    let name := pyStripS a.text
    let href := match a.href with
                | some h => if h = "" then url else h
                | none => url
    if name = "" || strContains (lowerS name) "pokemon" = false ||
        is_sealed name = false then none
    else
      let full_link := if startsWithS href "http" then href else url
      some { name := name, price := "Check website", link := full_link })

/-- The parser functions appearing in `STORES`. -/
inductive ParserKind where
  | smyths | entertainer | onestop | whsmith | forbidden | waterstones | cex | generic
deriving DecidableEq

def parseFun : ParserKind → String → Soup → List Product
  | ParserKind.smyths => parse_smyths
  | ParserKind.entertainer => parse_entertainer
  | ParserKind.onestop => parse_onestop
  | ParserKind.whsmith => parse_whsmith
  | ParserKind.forbidden => parse_forbidden_planet
  | ParserKind.waterstones => parse_waterstones
  | ParserKind.cex => parse_cex
  | ParserKind.generic => parse_generic

/-- Running a parser on the outcome of `get_soup(url)`: a fetch/parse
exception propagates. -/
def runParserE (k : ParserKind) (url : String) (soup : Except String Soup) :
    Except String (List Product) :=
  match soup with
  | Except.error e => Except.error e
  | Except.ok s => Except.ok (parseFun k url s)

/-! ### The store registry (`STORES`) -/

structure StoreCfg where
  url : String
  coord : Option Coord := none
  radius : Option ℚ := none
  parserKind : ParserKind
  online : Bool := false

def STORES : List (String × StoreCfg) :=
  [("Smyths Toys",
    { url := "https://www.smythstoys.com/uk/en-gb/search/?text=pokemon",
      coord := some (53552/1000, -(1128/1000)), radius := some 25,
      parserKind := ParserKind.smyths }),
   ("The Entertainer",
    { url := "https://www.thetoyshop.com/search/?text=pokemon",
      coord := some (53521/1000, -(1120/1000)), radius := some 30,
      parserKind := ParserKind.entertainer }),
   ("One Stop",
    { url := "https://www.onestop.co.uk/search?query=pokemon",
      coord := some USER_COORD, radius := some 30,
      parserKind := ParserKind.onestop }),
   ("WHSmith",
    { url := "https://www.whsmith.co.uk/search?query=pokemon",
      coord := some (53518/1000, -(1121/1000)), radius := some 30,
      parserKind := ParserKind.whsmith }),
   ("Forbidden Planet",
    { url := "https://forbiddenplanet.com/catalogsearch/result/?q=pokemon",
      coord := some USER_COORD, radius := some 30,
      parserKind := ParserKind.forbidden }),
   ("Waterstones",
    { url := "https://www.waterstones.com/books/search/term/pokemon",
      coord := some USER_COORD, radius := some 30,
      parserKind := ParserKind.waterstones }),
   ("CEX",
    { url := "https://uk.webuy.com/search/?query=pokemon",
      coord := some USER_COORD, radius := some 30,
      parserKind := ParserKind.cex }),
   ("Amazon UK",
    { url := "https://www.amazon.co.uk/s?k=pokemon+tcg",
      parserKind := ParserKind.generic, online := true }),
   ("eBay UK",
    { url := "https://www.ebay.co.uk/sch/i.html?_nkw=pokemon+tcg",
      parserKind := ParserKind.generic, online := true }),
   ("ASDA",
    { url := "https://groceries.asda.com/search/pokemon",
      parserKind := ParserKind.generic, online := true }),
   ("Tesco",
    { url := "https://www.tesco.com/groceries/en-GB/search?query=pokemon",
      parserKind := ParserKind.generic, online := true }),
   ("Morrisons",
    { url := "https://groceries.morrisons.com/search?searchTerm=pokemon",
      parserKind := ParserKind.generic, online := true }),
   ("Sainsbury\x27s",
    { url := "https://www.sainsburys.co.uk/shop/gb/groceries/search?search-term=pokemon",
      parserKind := ParserKind.generic, online := true }),
   ("Aldi",
    { url := "https://www.aldi.co.uk/search?query=pokemon",
      parserKind := ParserKind.generic, online := true }),
   ("B&M",
    { url := "https://www.bmstores.co.uk/brands/pok-mon",
      parserKind := ParserKind.generic, online := true })]

/-! ### `fetch_store` and the `run` pipeline -/

/-- Source `fetch_store(store, cfg)`: result is the `(store, products)` pair the
source returns, paired with the list of URLs for which a fetch was
attempted (`get_soup` is called exactly once, at the top of each parser).
A missing `coord` key for an offline store raises `KeyError`, which the
surrounding `try` turns into `(store, [])`. -/
def fetch_store (dist : Coord → ℚ) (env : String → Except String Soup)
    (store : String) (cfg : StoreCfg) : (String × List Product) × List String :=
  if cfg.online = false then
    match cfg.coord with
    | none => ((store, []), [])
    | some c =>
      if within_distance dist c (cfg.radius.getD DEFAULT_RADIUS_MILES) = false then
        ((store, []), [])
      else ((store, safe_parse (runParserE cfg.parserKind cfg.url (env cfg.url))),
            [cfg.url])
  else ((store, safe_parse (runParserE cfg.parserKind cfg.url (env cfg.url))),
        [cfg.url])

/-- The per-store results of the thread-pool `executor.map`, in `STORES`
order. -/
def runResults (dist : Coord → ℚ) (env : String → Except String Soup) :
    List ((String × List Product) × List String) :=
  STORES.map (fun sc => fetch_store dist env sc.1 sc.2)

/-- The `(store, product)` pairs visited by the nested notification loop of
`run`, in order. -/
def runPairs (dist : Coord → ℚ) (env : String → Except String Soup) :
    List (String × Product) :=
  ((runResults dist env).map (fun r => r.1.2.map (fun p => (r.1.1, p)))).flatten

/-- The identifier `f"{store}:{product['name']}"`. -/
def uidOf (sp : String × Product) : String :=
  sp.1 ++ ":" ++ sp.2.name

/-- One iteration of the notification loop of `run`: membership is tested
against the originally loaded `seen_items`, while additions go to the
`updated_seen` accumulator. -/
def dedupStep (seen : Finset String) (acc : Finset String × List (String × Product))
    (sp : String × Product) : Finset String × List (String × Product) :=
  if looks_in_stock sp.2.name = false then acc
  else if uidOf sp ∈ seen then acc
  else (insert (uidOf sp) acc.1, acc.2 ++ [sp])

/-- The whole notification loop of `run`: `updated_seen` starts as a copy of
the loaded set, `notifications` starts empty. -/
def dedupFold (seen : Finset String) (pairs : List (String × Product)) :
    Finset String × List (String × Product) :=
  pairs.foldl (dedupStep seen) (seen, [])

/-- The info string rendered for one product. -/
def infoLine (p : Product) : String :=
  product_emoji p.name ++ " " ++ p.name ++ "\nPrice: `" ++ p.price ++
    "`\n[Link](" ++ p.link ++ ")"

/-- Source `store_map.setdefault(store, []).append(info)` on an insertion-ordered
dictionary. -/
def insertStoreMap (m : List (String × List String)) (store : String)
    (info : String) : List (String × List String) :=
  match m with
  | [] => [(store, [info])]
  | (s, items) :: rest =>
    if s = store then (s, items ++ [info]) :: rest
    else (s, items) :: insertStoreMap rest store info

/-- The summary embed built by `run`. -/
def summaryEmbed (total : Nat) : Embed :=
  { title := "⚡ POKEMON RESTOCK ALERT! ⚡",
    description := "📍 Location: " ++ USER_LOCATION_LABEL ++
      "\n🆕 Total new items: **" ++ toString total ++ "**",
    color := 0xFF4500,
    footerText := "Check stores quickly, restocks go fast!" }

/-- The per-store embed built by `run`. -/
def storeEmbed (store : String) (items : List String) : Embed :=
  { title := store ++ " Restock (" ++ toString items.length ++ " new items)",
    description := String.intercalate "\n\n" items,
    color := dictGet STORE_COLORS store 0xFF0000,
    footerText := "📍 Location: " ++ USER_LOCATION_LABEL ++
      " - Check stores quickly!" }

/-- The embeds list `run` builds when `notifications` is non-empty: the
summary first, then one embed per entry of `store_map` (which is populated
only from `notifications[:50]`), skipping empty entries. -/
def buildEmbeds (notifications : List (String × Product)) : List Embed :=
  summaryEmbed notifications.length ::
    ((((notifications.take 50).foldl
        (fun m sp => insertStoreMap m sp.1 (infoLine sp.2)) []).filter
      (fun si => !si.2.isEmpty)).map (fun si => storeEmbed si.1 si.2))

/-- Everything one invocation of `run()` does, as a function of the
abstracted collaborators and the pre-state of the two files. -/
structure RunResult where
  notifications : List (String × Product)
  updatedSeen : Finset String
  embeds : List Embed
  posted : Option (List Embed)
  newLastSent : Option ℤ
  savedSeen : List Char
  queries : List String

/-- Source `run()`. -/
def run (dist : Coord → ℚ) (env : String → Except String Soup) (now : ℤ)
    (seenFile : Option (List Char)) (lastSent : Option ℤ) : RunResult :=
  let seen := load_seen_items seenFile
  let results := runResults dist env
  let d := dedupFold seen (runPairs dist env)
  let notifs := d.2
  let embeds := if notifs.isEmpty then [] else buildEmbeds notifs
  let sendOut := if notifs.isEmpty then (none, lastSent)
                 else send_discord_embeds now lastSent embeds
  { notifications := notifs,
    updatedSeen := d.1,
    embeds := embeds,
    posted := sendOut.1,
    newLastSent := sendOut.2,
    savedSeen := save_seen_items d.1,
    queries := (results.map (fun r => r.2)).flatten }

/-! ### Characterisation of the notification loop -/

/-- The condition under which the loop keeps a `(store, product)` pair:
it looks in stock and its identifier is not in the loaded seen set. -/
def notifPred (seen : Finset String) (sp : String × Product) : Bool :=
  looks_in_stock sp.2.name && !(decide (uidOf sp ∈ seen))

/-- The distinct elements of a list, in order of first appearance. -/
def dedupFirst (l : List String) : List String :=
  l.foldl (fun acc x => if x ∈ acc then acc else acc ++ [x]) []

/-- Declarative version of `store_map`: the stores in order of first
appearance, each paired with all its values, in order. -/
def specStoreMap (pairs : List (String × String)) : List (String × List String) :=
  (dedupFirst (pairs.map Prod.fst)).map
    (fun s => (s, (pairs.filter (fun q => q.1 = s)).map Prod.snd))

/-- The `store_map` loop of `run` as a fold. -/
def storeMapFold (pairs : List (String × String)) : List (String × List String) :=
  pairs.foldl (fun m q => insertStoreMap m q.1 q.2) []

/-- The embeds list described by the code`s rendering: a summary embed with
the full notification count, then one embed per store appearing among the
first 50 notifications, holding that store`s items among the first 50, in
order. -/
def specEmbedsAmended (notifs : List (String × Product)) : List Embed :=
  summaryEmbed notifs.length ::
    (dedupFirst ((notifs.take 50).map Prod.fst)).map (fun s =>
      storeEmbed s
        (((notifs.take 50).filter (fun sp => sp.1 = s)).map (fun sp => infoLine sp.2)))

/-- The embeds list claimed by the specification sentence: a summary embed
with the full count, then one embed per store having new items, holding ALL
of that store`s new items (no 50-item truncation). -/
def specEmbedsC5 (notifs : List (String × Product)) : List Embed :=
  summaryEmbed notifs.length ::
    (dedupFirst (notifs.map Prod.fst)).map (fun s =>
      storeEmbed s ((notifs.filter (fun sp => sp.1 = s)).map (fun sp => infoLine sp.2)))

/-! ### Concrete inputs used by witnesses and counterexamples -/

/-- A Smyths product tile for a sealed in-stock product. -/
def tileB : Tile :=
  { name_el := some { text := "Pokemon Booster Box", href := "" },
    price_el := none,
    link_el := some { text := "", href := "/p" } }

def soupW : Soup := { productTiles := [tileB] }

/-- An environment where only the Smyths page loads, with one product. -/
def envW : String → Except String Soup := fun url =>
  if url = "https://www.smythstoys.com/uk/en-gb/search/?text=pokemon" then Except.ok soupW
  else Except.error "offline"

def ankN (i : Nat) : Anchor :=
  { text := "pokemon etb " ++ toString i, href := some "https://x/p", parentPrice := none }

/-- A soup holding 51 distinct sealed products. -/
def soup51 : Soup := { anchors := (List.range 51).map ankN }

/-- An environment where only the Amazon UK page loads, with 51 products. -/
def env51 : String → Except String Soup := fun url =>
  if url = "https://www.amazon.co.uk/s?k=pokemon+tcg" then Except.ok soup51
  else Except.error "skip"

/-- A Smyths tile whose product name contains an embedded newline. -/
def tileNl : Tile :=
  { name_el := some { text := "pokemon\nbooster", href := "" },
    price_el := none,
    link_el := some { text := "", href := "/x" } }

def soupNl : Soup := { productTiles := [tileNl] }

def envNl : String → Except String Soup := fun url =>
  if url = "https://www.smythstoys.com/uk/en-gb/search/?text=pokemon" then Except.ok soupNl
  else Except.error "skip"

def ankT : Anchor :=
  { text := "pokemon tin one", href := some "https://x/q", parentPrice := none }

def envT : String → Except String Soup := fun url =>
  if url = "https://www.amazon.co.uk/s?k=pokemon+tcg" then Except.ok { anchors := [ankT] }
  else Except.error "skip"

lemma dedupFold_go (seen : Finset String) :
    ∀ (pairs : List (String × Product)) (acc : Finset String × List (String × Product)),
    pairs.foldl (dedupStep seen) acc =
      (acc.1 ∪ ((pairs.filter (notifPred seen)).map uidOf).toFinset,
       acc.2 ++ pairs.filter (notifPred seen)) := by
  intro pairs
  induction pairs with
  | nil => intro acc; simp
  | cons sp rest ih =>
    intro acc
    by_cases h1 : looks_in_stock sp.2.name
    · by_cases h2 : uidOf sp ∈ seen
      · have hstep : dedupStep seen acc sp = acc := by
          simp [dedupStep, h1, h2]
        have hpred : notifPred seen sp = false := by
          simp [notifPred, h1, h2]
        simp only [List.foldl_cons, hstep, List.filter_cons, hpred]
        exact ih acc
      · have hstep : dedupStep seen acc sp = (insert (uidOf sp) acc.1, acc.2 ++ [sp]) := by
          simp [dedupStep, h1, h2]
        have hpred : notifPred seen sp = true := by
          simp [notifPred, h1, h2]
        simp only [List.foldl_cons, hstep, List.filter_cons, hpred, if_true]
        rw [ih]
        simp [Finset.insert_union, List.toFinset_cons]
    · have hstep : dedupStep seen acc sp = acc := by
        simp [dedupStep, h1]
      have hpred : notifPred seen sp = false := by
        simp [notifPred, h1]
      simp only [List.foldl_cons, hstep, List.filter_cons, hpred]
      exact ih acc

/-- The loop of `run` computes: updated seen set = loaded set united with
the kept identifiers; notifications = the kept pairs, in order. -/
lemma dedupFold_eq (seen : Finset String) (pairs : List (String × Product)) :
    dedupFold seen pairs =
      (seen ∪ ((pairs.filter (notifPred seen)).map uidOf).toFinset,
       pairs.filter (notifPred seen)) := by
  unfold dedupFold
  rw [dedupFold_go]
  simp

lemma run_notifications (dist : Coord → ℚ) (env : String → Except String Soup)
    (now : ℤ) (seenFile : Option (List Char)) (lastSent : Option ℤ) :
    (run dist env now seenFile lastSent).notifications =
      (runPairs dist env).filter (notifPred (load_seen_items seenFile)) := by
  show (dedupFold _ _).2 = _
  rw [dedupFold_eq]

lemma run_updatedSeen (dist : Coord → ℚ) (env : String → Except String Soup)
    (now : ℤ) (seenFile : Option (List Char)) (lastSent : Option ℤ) :
    (run dist env now seenFile lastSent).updatedSeen =
      load_seen_items seenFile ∪
        (((run dist env now seenFile lastSent).notifications).map uidOf).toFinset := by
  show (dedupFold _ _).1 = _
  rw [dedupFold_eq, run_notifications]

lemma run_embeds (dist : Coord → ℚ) (env : String → Except String Soup)
    (now : ℤ) (seenFile : Option (List Char)) (lastSent : Option ℤ) :
    (run dist env now seenFile lastSent).embeds =
      (if (run dist env now seenFile lastSent).notifications.isEmpty then []
       else buildEmbeds (run dist env now seenFile lastSent).notifications) := rfl

lemma run_posted (dist : Coord → ℚ) (env : String → Except String Soup)
    (now : ℤ) (seenFile : Option (List Char)) (lastSent : Option ℤ) :
    (run dist env now seenFile lastSent).posted =
      (if (run dist env now seenFile lastSent).notifications.isEmpty then
        ((none : Option (List Embed)), lastSent)
       else send_discord_embeds now lastSent
              (run dist env now seenFile lastSent).embeds).1 := rfl

lemma run_savedSeen (dist : Coord → ℚ) (env : String → Except String Soup)
    (now : ℤ) (seenFile : Option (List Char)) (lastSent : Option ℤ) :
    (run dist env now seenFile lastSent).savedSeen =
      save_seen_items (run dist env now seenFile lastSent).updatedSeen := rfl

/-! ### Every parser only emits sealed products -/

lemma parseFun_sealed (k : ParserKind) (url : String) (soup : Soup) :
    ∀ p ∈ parseFun k url soup, is_sealed p.name = true := by
  intro p hp
  cases k <;>
    simp only [parseFun, parse_smyths, parse_entertainer, parse_onestop, parse_whsmith,
      parse_forbidden_planet, parse_waterstones, parse_cex, parse_generic,
      List.mem_filterMap] at hp <;>
    obtain ⟨a, -, ha⟩ := hp <;>
    (repeat' split at ha) <;>
    first
      | exact Option.noConfusion ha
      | (injection ha with ha; cases ha; simp_all)

/-- Whatever `fetch_store` returns, every product in it came from the
store's parser and is therefore sealed. -/
lemma fetch_store_sealed (dist : Coord → ℚ) (env : String → Except String Soup)
    (store : String) (cfg : StoreCfg) :
    ∀ p ∈ (fetch_store dist env store cfg).1.2, is_sealed p.name = true := by
  intro p hp
  unfold fetch_store at hp
  have hsafe : ∀ q ∈ safe_parse (runParserE cfg.parserKind cfg.url (env cfg.url)),
      is_sealed q.name = true := by
    intro q hq
    cases henv : env cfg.url with
    | error e => simp [safe_parse, runParserE, henv] at hq
    | ok soup =>
      rw [henv] at hq
      exact parseFun_sealed cfg.parserKind cfg.url soup q hq
  split at hp
  · split at hp
    · simp at hp
    · split at hp
      · simp at hp
      · exact hsafe p hp
  · exact hsafe p hp

/-- Every `(store, product)` pair the notification loop visits carries a
sealed product. -/
lemma runPairs_sealed (dist : Coord → ℚ) (env : String → Except String Soup) :
    ∀ sp ∈ runPairs dist env, is_sealed sp.2.name = true := by
  intro sp hsp
  simp only [runPairs, List.mem_flatten] at hsp
  obtain ⟨l, hl, hmem⟩ := hsp
  rw [List.mem_map] at hl
  obtain ⟨r, hr, rfl⟩ := hl
  rw [List.mem_map] at hmem
  obtain ⟨p, hp, rfl⟩ := hmem
  simp only [runResults, List.mem_map] at hr
  obtain ⟨sc, -, rfl⟩ := hr
  exact fetch_store_sealed dist env sc.1 sc.2 p hp

/-! ### Grouping: the `store_map` fold equals a declarative grouping -/

lemma dedupFirst_go_mem (x : String) :
    ∀ (l acc : List String),
      (x ∈ l.foldl (fun acc y => if y ∈ acc then acc else acc ++ [y]) acc ↔
        x ∈ acc ∨ x ∈ l) := by
  intro l
  induction l with
  | nil => intro acc; simp
  | cons y rest ih =>
    intro acc
    simp only [List.foldl_cons]
    by_cases hy : y ∈ acc
    · rw [if_pos hy, ih]
      constructor
      · rintro (h | h)
        · exact Or.inl h
        · exact Or.inr (List.mem_cons_of_mem _ h)
      · rintro (h | h)
        · exact Or.inl h
        · rcases List.mem_cons.mp h with rfl | h
          · exact Or.inl hy
          · exact Or.inr h
    · rw [if_neg hy, ih]
      simp [List.mem_append, List.mem_cons]
      tauto

lemma dedupFirst_mem (x : String) (l : List String) :
    x ∈ dedupFirst l ↔ x ∈ l := by
  rw [dedupFirst, dedupFirst_go_mem]
  simp

lemma dedupFirst_go_nodup :
    ∀ (l acc : List String), acc.Nodup →
      (l.foldl (fun acc y => if y ∈ acc then acc else acc ++ [y]) acc).Nodup := by
  intro l
  induction l with
  | nil => intro acc h; simpa
  | cons y rest ih =>
    intro acc hacc
    simp only [List.foldl_cons]
    by_cases hy : y ∈ acc
    · rw [if_pos hy]; exact ih acc hacc
    · rw [if_neg hy]
      refine ih _ ?_
      rw [(List.perm_append_singleton y acc).nodup_iff, List.nodup_cons]
      exact ⟨hy, hacc⟩

lemma dedupFirst_nodup (l : List String) : (dedupFirst l).Nodup :=
  dedupFirst_go_nodup l [] List.nodup_nil

lemma dedupFirst_concat (l : List String) (x : String) :
    dedupFirst (l ++ [x]) =
      if x ∈ l then dedupFirst l else dedupFirst l ++ [x] := by
  have h : dedupFirst (l ++ [x]) =
      if x ∈ dedupFirst l then dedupFirst l else dedupFirst l ++ [x] := by
    unfold dedupFirst
    rw [List.foldl_append]
    simp only [List.foldl_cons, List.foldl_nil]
  rw [h]
  simp only [dedupFirst_mem]

lemma insertStoreMap_absent (m : List (String × List String)) (s i : String)
    (h : s ∉ m.map Prod.fst) : insertStoreMap m s i = m ++ [(s, [i])] := by
  induction m with
  | nil => rfl
  | cons kv rest ih =>
    obtain ⟨k, v⟩ := kv
    simp only [List.map_cons, List.mem_cons, not_or] at h
    simp only [insertStoreMap]
    rw [if_neg (fun hk => h.1 hk.symm), ih h.2]
    rfl

lemma insertStoreMap_speclist (g : String → List String) (s i : String) :
    ∀ (l : List String), l.Nodup → s ∈ l →
      insertStoreMap (l.map (fun t => (t, g t))) s i =
        l.map (fun t => (t, if t = s then g t ++ [i] else g t)) := by
  intro l
  induction l with
  | nil => simp
  | cons t rest ih =>
    intro hnd hs
    simp only [List.map_cons, insertStoreMap]
    by_cases ht : t = s
    · subst ht
      rw [if_pos rfl, if_pos rfl]
      congr 1
      apply List.map_congr_left
      intro a ha
      have hat : ¬ (a = t) := fun h => (List.nodup_cons.mp hnd).1 (h ▸ ha)
      rw [if_neg hat]
    · rw [if_neg ht, if_neg ht]
      have hs' : s ∈ rest := by
        rcases List.mem_cons.mp hs with h | h
        · exact absurd h.symm ht
        · exact h
      rw [ih (List.nodup_cons.mp hnd).2 hs']

lemma specStoreMap_keys (pairs : List (String × String)) :
    (specStoreMap pairs).map Prod.fst = dedupFirst (pairs.map Prod.fst) := by
  unfold specStoreMap
  rw [List.map_map]
  have h : (Prod.fst ∘ fun s =>
      (s, (pairs.filter (fun q => q.1 = s)).map Prod.snd)) = id := rfl
  rw [h, List.map_id]

lemma filter_key_nil {pairs : List (String × String)} {s : String}
    (h : s ∉ pairs.map Prod.fst) :
    pairs.filter (fun q => q.1 = s) = [] := by
  rw [List.filter_eq_nil_iff]
  intro q hq
  simp only [decide_eq_true_eq]
  rintro rfl
  exact h (List.mem_map_of_mem Prod.fst hq)

/-- The insertion-ordered `store_map` fold groups exactly: its keys are the
stores in order of first appearance and each key maps to all of that
store's values, in order. -/
lemma storeMapFold_eq (pairs : List (String × String)) :
    storeMapFold pairs = specStoreMap pairs := by
  induction pairs using List.reverseRecOn with
  | nil => rfl
  | append_singleton ps q ih =>
    have hfold : storeMapFold (ps ++ [q]) = insertStoreMap (storeMapFold ps) q.1 q.2 := by
      unfold storeMapFold
      rw [List.foldl_append]
      simp only [List.foldl_cons, List.foldl_nil]
    rw [hfold, ih]
    obtain ⟨s, i⟩ := q
    by_cases hs : s ∈ ps.map Prod.fst
    · rw [show (insertStoreMap (specStoreMap ps) s i) =
            (dedupFirst (ps.map Prod.fst)).map
              (fun t => (t, if t = s then
                  ((ps.filter (fun q => q.1 = t)).map Prod.snd) ++ [i]
                else (ps.filter (fun q => q.1 = t)).map Prod.snd)) from
        insertStoreMap_speclist _ s i _ (dedupFirst_nodup _) ((dedupFirst_mem _ _).mpr hs)]
      unfold specStoreMap
      rw [List.map_append]
      simp only [List.map_cons, List.map_nil]
      rw [dedupFirst_concat, if_pos hs]
      apply List.map_congr_left
      intro t ht
      rw [List.filter_append]
      by_cases hts : t = s
      · subst hts
        simp
      · simp [hts, Ne.symm hts]
    · rw [insertStoreMap_absent _ _ _ (by rwa [specStoreMap_keys, dedupFirst_mem])]
      unfold specStoreMap
      rw [List.map_append]
      simp only [List.map_cons, List.map_nil]
      rw [dedupFirst_concat, if_neg hs, List.map_append]
      congr 1
      · apply List.map_congr_left
        intro t ht
        have hts : t ≠ s := fun h => hs (h ▸ (dedupFirst_mem t _).mp ht)
        rw [List.filter_append]
        simp [Ne.symm hts]
      · simp [List.filter_append, filter_key_nil hs]

lemma specStoreMap_ne_nil (pairs : List (String × String)) :
    ∀ si ∈ specStoreMap pairs, si.2.isEmpty = false := by
  intro si hsi
  unfold specStoreMap at hsi
  rw [List.mem_map] at hsi
  obtain ⟨s, hs, rfl⟩ := hsi
  rw [dedupFirst_mem, List.mem_map] at hs
  obtain ⟨q, hq, rfl⟩ := hs
  have hmem : q ∈ pairs.filter (fun p => p.1 = q.1) := by
    rw [List.mem_filter]
    exact ⟨hq, by simp⟩
  have hne : (pairs.filter (fun p => p.1 = q.1)).map Prod.snd ≠ [] := by
    intro hnil
    rw [List.map_eq_nil_iff] at hnil
    rw [hnil] at hmem
    exact absurd hmem (List.not_mem_nil q)
  simpa [List.isEmpty_iff] using hne

/-- Source `run`'s embed construction renders exactly the grouped first 50
notifications under a summary carrying the full count. -/
lemma buildEmbeds_eq (notifs : List (String × Product)) :
    buildEmbeds notifs = specEmbedsAmended notifs := by
  unfold buildEmbeds specEmbedsAmended
  congr 1
  have h1 : (notifs.take 50).foldl (fun m sp => insertStoreMap m sp.1 (infoLine sp.2)) [] =
      storeMapFold ((notifs.take 50).map (fun sp => (sp.1, infoLine sp.2))) := by
    unfold storeMapFold
    rw [List.foldl_map]
  rw [h1, storeMapFold_eq]
  rw [List.filter_eq_self.mpr (fun si hsi => by
    rw [specStoreMap_ne_nil _ si hsi]
    rfl)]
  unfold specStoreMap
  rw [List.map_map]
  have hkeys : ((notifs.take 50).map (fun sp => (sp.1, infoLine sp.2))).map Prod.fst =
      (notifs.take 50).map Prod.fst := by
    rw [List.map_map]
    rfl
  rw [hkeys]
  apply List.map_congr_left
  intro s hs
  simp only [Function.comp]
  congr 1
  rw [List.filter_map, List.map_map]
  rfl

/-! ### Seen-file round-trip lemmas -/

lemma splitNl_ne_nil (l : List Char) : splitNl l ≠ [] := by
  induction l with
  | nil => simp [splitNl]
  | cons c cs ih =>
    by_cases hc : c = '\n'
    · simp [splitNl, hc]
    · simp only [splitNl, if_neg hc]
      cases h : splitNl cs <;> simp

/-- Splitting a newline-free chunk followed by a newline peels it off
whole. -/
lemma splitNl_clean : ∀ (a r : List Char), '\n' ∉ a →
    splitNl (a ++ '\n' :: r) = a :: splitNl r := by
  intro a
  induction a with
  | nil => intro r h; simp [splitNl]
  | cons c cs ih =>
    intro r h
    have hc : ¬ (c = '\n') := fun hq => h (by rw [hq]; exact List.mem_cons_self _ _)
    simp only [List.cons_append, splitNl, if_neg hc]
    have ihh : splitNl (cs.append ('\n' :: r)) = cs :: splitNl r :=
      ih r (fun hm => h (List.mem_cons_of_mem c hm))
    rw [ihh]

/-- Splitting anything followed by a newline and a remainder begins with a
non-empty prefix of chunks coming from the first part alone. -/
lemma splitNl_pre : ∀ (a r : List Char), ∃ pre, pre ≠ [] ∧
    splitNl (a ++ '\n' :: r) = pre ++ splitNl r := by
  intro a
  induction a with
  | nil => intro r; exact ⟨[[]], by simp, by simp [splitNl]⟩
  | cons c cs ih =>
    intro r
    by_cases hc : c = '\n'
    · obtain ⟨pre, hne, hp⟩ := ih r
      exact ⟨[] :: pre, by simp, by simp [List.cons_append, splitNl, hc, hp]⟩
    · obtain ⟨pre, hne, hp⟩ := ih r
      cases pre with
      | nil => exact absurd rfl hne
      | cons p ps =>
        refine ⟨(c :: p) :: ps, by simp, ?_⟩
        simp only [List.cons_append, splitNl, if_neg hc]
        have hp' : splitNl (cs.append ('\n' :: r)) = p :: (ps ++ splitNl r) := hp
        rw [hp']

lemma getLast?_cons_of_ne_nil (y : List Char) (t : List (List Char)) (h : t ≠ []) :
    (y :: t).getLast? = t.getLast? := by
  cases t with
  | nil => exact absurd rfl h
  | cons z zs => simp

lemma getLast?_append_ne_nil (l₁ l₂ : List (List Char)) (h : l₂ ≠ []) :
    (l₁ ++ l₂).getLast? = l₂.getLast? := by
  induction l₁ with
  | nil => rfl
  | cons y ys ih =>
    rw [List.cons_append, getLast?_cons_of_ne_nil _ _ (by
      intro hnil
      exact h (List.append_eq_nil.mp hnil).2), ih]

lemma dropLast_cons_of_ne_nil (y : List Char) (t : List (List Char)) (h : t ≠ []) :
    (y :: t).dropLast = y :: t.dropLast := by
  cases t with
  | nil => exact absurd rfl h
  | cons z zs => rfl

lemma dropLast_append_ne_nil (l₁ l₂ : List (List Char)) (h : l₂ ≠ []) :
    (l₁ ++ l₂).dropLast = l₁ ++ l₂.dropLast := by
  induction l₁ with
  | nil => rfl
  | cons y ys ih =>
    rw [List.cons_append, dropLast_cons_of_ne_nil _ _ (by
      intro hnil
      exact h (List.append_eq_nil.mp hnil).2), ih, List.cons_append]

/-- Reading the lines of a clean chunk followed by newline and a rest. -/
lemma pyLines_clean_cons (a s : List Char) (h : '\n' ∉ a) :
    pyLines (a ++ '\n' :: s) = a :: pyLines s := by
  unfold pyLines
  rw [splitNl_clean a s h]
  have hne := splitNl_ne_nil s
  rw [getLast?_cons_of_ne_nil _ _ hne]
  by_cases hlast : (splitNl s).getLast? = some []
  · rw [if_pos hlast, if_pos hlast, dropLast_cons_of_ne_nil _ _ hne]
  · rw [if_neg hlast, if_neg hlast]

/-- The lines of any chunk followed by newline and a rest extend the lines
of the rest on the left. -/
lemma pyLines_append_pre (a s : List Char) :
    ∃ pre, pyLines (a ++ '\n' :: s) = pre ++ pyLines s := by
  obtain ⟨pre, hne, hsp⟩ := splitNl_pre a s
  refine ⟨pre, ?_⟩
  unfold pyLines
  rw [hsp, getLast?_append_ne_nil pre _ (splitNl_ne_nil s)]
  by_cases hlast : (splitNl s).getLast? = some []
  · rw [if_pos hlast, if_pos hlast, dropLast_append_ne_nil _ _ (splitNl_ne_nil s)]
  · rw [if_neg hlast, if_neg hlast]

lemma univNewlines_cons (c : Char) (cs : List Char) :
    univNewlines (c :: cs) =
      if c = '\r' then
        match cs with
        | [] => ['\n']
        | d :: rest =>
          if d = '\n' then '\n' :: univNewlines rest
          else '\n' :: univNewlines (d :: rest)
      else c :: univNewlines cs := by
  rw [univNewlines.eq_def]

lemma univNewlines_cons_other (c : Char) (cs : List Char) (hc : ¬ (c = '\r')) :
    univNewlines (c :: cs) = c :: univNewlines cs := by
  rw [univNewlines_cons, if_neg hc]

lemma univNewlines_cr_cons (d : Char) (rest : List Char) :
    univNewlines ('\r' :: d :: rest) =
      if d = '\n' then '\n' :: univNewlines rest
      else '\n' :: univNewlines (d :: rest) := by
  rw [univNewlines_cons, if_pos rfl]

/-- Universal-newline translation is the identity on carriage-return-free
text. -/
lemma univNewlines_of_no_cr : ∀ (l : List Char), '\r' ∉ l → univNewlines l = l := by
  intro l
  induction l with
  | nil => intro _; rfl
  | cons c cs ih =>
    intro h
    have hc : ¬ (c = '\r') := fun hq => h (by rw [hq]; exact List.mem_cons_self _ _)
    rw [univNewlines_cons_other c cs hc, ih (fun hm => h (List.mem_cons_of_mem c hm))]

/-- Universal-newline translation passes over a carriage-return-free chunk
terminated by a newline and continues on the rest. -/
lemma univNewlines_clean_append : ∀ (a s : List Char), '\r' ∉ a →
    univNewlines (a ++ '\n' :: s) = a ++ '\n' :: univNewlines s := by
  intro a
  induction a with
  | nil =>
    intro s _
    rw [List.nil_append, List.nil_append,
      univNewlines_cons_other '\n' s (by decide)]
  | cons c cs ih =>
    intro s h
    have hc : ¬ (c = '\r') := fun hq => h (by rw [hq]; exact List.mem_cons_self _ _)
    rw [List.cons_append, univNewlines_cons_other c _ hc,
      ih s (fun hm => h (List.mem_cons_of_mem c hm)), List.cons_append]

/-- Whatever precedes a written newline, universal-newline translation
leaves a translated prefix followed by a newline and the translation of the
rest. -/
lemma univNewlines_pre : ∀ (y s : List Char),
    ∃ a, univNewlines (y ++ '\n' :: s) = a ++ '\n' :: univNewlines s := by
  intro y
  induction y with
  | nil =>
    intro s
    exact ⟨[], by
      rw [List.nil_append, List.nil_append,
        univNewlines_cons_other '\n' s (by decide)]⟩
  | cons c cs ih =>
    intro s
    by_cases hc : c = '\r'
    · subst hc
      cases cs with
      | nil =>
        refine ⟨[], ?_⟩
        show univNewlines ('\r' :: '\n' :: s) = [] ++ '\n' :: univNewlines s
        rw [univNewlines_cr_cons, if_pos rfl, List.nil_append]
      | cons d cs' =>
        by_cases hd : d = '\n'
        · subst hd
          obtain ⟨a, ha⟩ := ih s
          rw [List.cons_append, univNewlines_cons_other '\n' _ (by decide)] at ha
          refine ⟨a, ?_⟩
          show univNewlines ('\r' :: '\n' :: (cs' ++ '\n' :: s)) = a ++ '\n' :: univNewlines s
          rw [univNewlines_cr_cons, if_pos rfl]
          exact ha
        · obtain ⟨a, ha⟩ := ih s
          refine ⟨'\n' :: a, ?_⟩
          show univNewlines ('\r' :: d :: (cs' ++ '\n' :: s)) =
            ('\n' :: a) ++ '\n' :: univNewlines s
          rw [univNewlines_cr_cons, if_neg hd]
          rw [show d :: (cs' ++ '\n' :: s) = (d :: cs') ++ '\n' :: s from rfl, ha]
          rfl
    · obtain ⟨a, ha⟩ := ih s
      refine ⟨c :: a, ?_⟩
      rw [List.cons_append, univNewlines_cons_other c _ hc, ha]
      rfl

/-- A newline-free, carriage-return-free element of the saved list appears
among the lines read back, whatever the other elements look like. -/
lemma mem_pyLines_univ : ∀ (ls : List (List Char)) (x : List Char), x ∈ ls →
    '\n' ∉ x → '\r' ∉ x →
    x ∈ pyLines (univNewlines ((ls.map (fun y => y ++ ['\n'])).flatten)) := by
  intro ls
  induction ls with
  | nil => intro x hx _ _; exact absurd hx (List.not_mem_nil x)
  | cons y rest ih =>
    intro x hx hn hr
    simp only [List.map_cons, List.flatten_cons]
    rw [List.append_assoc, List.singleton_append]
    rcases List.mem_cons.mp hx with rfl | hx'
    · rw [univNewlines_clean_append _ _ hr, pyLines_clean_cons _ _ hn]
      exact List.mem_cons_self _ _
    · obtain ⟨a, ha⟩ := univNewlines_pre y ((rest.map (fun y => y ++ ['\n'])).flatten)
      rw [ha]
      obtain ⟨pre, hp⟩ := pyLines_append_pre a
        (univNewlines ((rest.map (fun y => y ++ ['\n'])).flatten))
      rw [hp]
      exact List.mem_append_right pre (ih x hx' hn hr)

/-- Saving a list of newline-free elements and splitting the file back
yields exactly those elements followed by one empty chunk. -/
lemma splitNl_flatten : ∀ (ls : List (List Char)), (∀ x ∈ ls, '\n' ∉ x) →
    splitNl ((ls.map (fun x => x ++ ['\n'])).flatten) = ls ++ [[]] := by
  intro ls
  induction ls with
  | nil => intro _; simp [splitNl]
  | cons x rest ih =>
    intro h
    simp only [List.map_cons, List.flatten_cons]
    rw [List.append_assoc, List.singleton_append,
      splitNl_clean x _ (h x (List.mem_cons_self x rest)),
      ih (fun y hy => h y (List.mem_cons_of_mem x hy))]
    rfl

lemma pyLines_flatten (ls : List (List Char)) (h : ∀ x ∈ ls, '\n' ∉ x) :
    pyLines ((ls.map (fun x => x ++ ['\n'])).flatten) = ls := by
  unfold pyLines
  rw [splitNl_flatten ls h, List.getLast?_concat, if_pos rfl]
  exact List.dropLast_concat

lemma mem_sortedSeen (S : Finset String) (x : String) :
    x ∈ sortedSeen S ↔ x ∈ S := by
  obtain ⟨m, hnd⟩ := S
  refine Quotient.inductionOn m (fun l hnd => ?_) hnd
  show x ∈ List.insertionSort (· ≤ ·) l ↔ _
  rw [(List.perm_insertionSort (· ≤ ·) l).mem_iff]
  rfl

/-- Round trip: saving a set of newline-free, carriage-return-free,
strip-invariant strings and loading the file back gives the same set. -/
lemma load_save_of_clean (S : Finset String)
    (h : ∀ x ∈ S, '\n' ∉ x.data ∧ '\r' ∉ x.data ∧ pyStrip x.data = x.data) :
    load_seen_items (some (save_seen_items S)) = S := by
  rw [show load_seen_items (some (save_seen_items S)) =
    ((pyLines (univNewlines (save_seen_items S))).map
      (fun l => String.mk (pyStrip l))).toFinset from rfl]
  unfold save_seen_items
  have hmm : ((sortedSeen S).map (fun s => s.data ++ ['\n'])) =
      (((sortedSeen S).map String.data).map (fun x => x ++ ['\n'])) := by
    rw [List.map_map]
    rfl
  rw [hmm]
  rw [univNewlines_of_no_cr _ (by
    intro hrin
    rw [List.mem_flatten] at hrin
    obtain ⟨l, hl, hrl⟩ := hrin
    rw [List.mem_map] at hl
    obtain ⟨yd, hyd, rfl⟩ := hl
    rw [List.mem_map] at hyd
    obtain ⟨y, hy, rfl⟩ := hyd
    rcases List.mem_append.mp hrl with hin | hin
    · exact (h y ((mem_sortedSeen S y).mp hy)).2.1 hin
    · simp at hin)]
  rw [pyLines_flatten _ (by
    intro x hx
    rw [List.mem_map] at hx
    obtain ⟨y, hy, rfl⟩ := hx
    exact (h y ((mem_sortedSeen S y).mp hy)).1)]
  rw [List.map_map]
  have hcong : (sortedSeen S).map ((fun l => String.mk (pyStrip l)) ∘ String.data) =
      (sortedSeen S).map id := by
    apply List.map_congr_left
    intro y hy
    simp only [Function.comp, id]
    rw [(h y ((mem_sortedSeen S y).mp hy)).2.2]
  rw [hcong, List.map_id]
  ext a
  rw [List.mem_toFinset, mem_sortedSeen]

/-- A newline-free, carriage-return-free, strip-invariant member of a saved
set is recovered by a later load, even if other members of the set are not
clean. -/
lemma mem_load_save (S : Finset String) (x : String) (hx : x ∈ S)
    (h1 : '\n' ∉ x.data) (h1r : '\r' ∉ x.data) (h2 : pyStrip x.data = x.data) :
    x ∈ load_seen_items (some (save_seen_items S)) := by
  rw [show load_seen_items (some (save_seen_items S)) =
    ((pyLines (univNewlines (save_seen_items S))).map
      (fun l => String.mk (pyStrip l))).toFinset from rfl]
  unfold save_seen_items
  rw [List.mem_toFinset]
  have hmm : ((sortedSeen S).map (fun s => s.data ++ ['\n'])) =
      (((sortedSeen S).map String.data).map (fun y => y ++ ['\n'])) := by
    rw [List.map_map]
    rfl
  rw [hmm]
  have hxmem : x.data ∈ (sortedSeen S).map String.data :=
    List.mem_map_of_mem _ ((mem_sortedSeen S x).mpr hx)
  refine List.mem_map.mpr ⟨x.data, mem_pyLines_univ _ _ hxmem h1 h1r, ?_⟩
  rw [h2]

/-! ### Cooldown trace lemmas -/

lemma runTrace_lower : ∀ (events : List (ℤ × List Embed)) (l : ℤ),
    ∀ t ∈ runTrace (some l) events, l + DISCORD_COOLDOWN_SECONDS ≤ t := by
  intro events
  induction events with
  | nil => intro l t ht; simp [runTrace] at ht
  | cons e rest ih =>
    intro l t ht
    by_cases hc : can_send_discord e.1 (some l) = true
    · have hstep : runTrace (some l) (e :: rest) = e.1 :: runTrace (some e.1) rest := by
        simp [runTrace, send_discord_embeds, hc]
      rw [hstep] at ht
      have hge : l + DISCORD_COOLDOWN_SECONDS ≤ e.1 := by
        simp only [can_send_discord, decide_eq_true_eq, ge_iff_le] at hc
        linarith
      rcases List.mem_cons.mp ht with rfl | ht'
      · exact hge
      · have h2 := ih e.1 t ht'
        have h3 : (0:ℤ) ≤ DISCORD_COOLDOWN_SECONDS := by
          norm_num [DISCORD_COOLDOWN_SECONDS]
        linarith
    · have hstep : runTrace (some l) (e :: rest) = runTrace (some l) rest := by
        simp [runTrace, send_discord_embeds, hc]
      rw [hstep] at ht
      exact ih l t ht

lemma runTrace_pairwise : ∀ (events : List (ℤ × List Embed)) (st : Option ℤ),
    (runTrace st events).Pairwise (fun a b => a + DISCORD_COOLDOWN_SECONDS ≤ b) := by
  intro events
  induction events with
  | nil => intro st; simp [runTrace]
  | cons e rest ih =>
    intro st
    by_cases hc : can_send_discord e.1 st = true
    · have hstep : runTrace st (e :: rest) = e.1 :: runTrace (some e.1) rest := by
        simp [runTrace, send_discord_embeds, hc]
      rw [hstep]
      exact List.pairwise_cons.mpr ⟨fun t ht => runTrace_lower rest e.1 t ht, ih (some e.1)⟩
    · have hstep : runTrace st (e :: rest) = runTrace st rest := by
        simp [runTrace, send_discord_embeds, hc]
      rw [hstep]
      exact ih st

/-! ### Support lemmas for the fetch claims -/

lemma fetch_store_fst (dist : Coord → ℚ) (env : String → Except String Soup)
    (store : String) (cfg : StoreCfg) :
    (fetch_store dist env store cfg).1.1 = store := by
  unfold fetch_store
  repeat' split
  all_goals rfl

lemma fetch_store_queries (dist : Coord → ℚ) (env : String → Except String Soup)
    (store : String) (cfg : StoreCfg) :
    (fetch_store dist env store cfg).2.Sublist [cfg.url] := by
  unfold fetch_store
  repeat' split
  all_goals simp

lemma fetch_store_error (dist : Coord → ℚ) (env : String → Except String Soup)
    (store : String) (cfg : StoreCfg) (e : String) (h : env cfg.url = Except.error e) :
    (fetch_store dist env store cfg).1.2 = [] := by
  unfold fetch_store
  repeat' split
  all_goals simp [safe_parse, runParserE, h]

lemma flatten_map_sublist {α β : Type} (l : List α) (f : α → List β) (g : α → β)
    (h : ∀ a, (f a).Sublist [g a]) : ((l.map f).flatten).Sublist (l.map g) := by
  induction l with
  | nil => simp
  | cons a as ih =>
    simp only [List.map_cons, List.flatten_cons]
    exact List.Sublist.append (h a) ih

/-! ### Claim theorems -/

/-- C1: a `(store, product)` pair visited in a run enters the notification
batch exactly when it looks in stock and its identifier
`f"{store}:{product['name']}"` is not in the seen set loaded from the
persisted seen-items file; in particular every pair whose identifier is in
the loaded seen set is excluded, and only pairs whose identifier is absent
from the loaded set are appended. -/
theorem claim_C1 (dist : Coord → ℚ) (env : String → Except String Soup) (now : ℤ)
    (seenFile : Option (List Char)) (lastSent : Option ℤ) (sp : String × Product) :
    sp ∈ (run dist env now seenFile lastSent).notifications ↔
      (sp ∈ runPairs dist env ∧ looks_in_stock sp.2.name = true ∧
        uidOf sp ∉ load_seen_items seenFile) := by
  rw [run_notifications, List.mem_filter]
  unfold notifPred
  simp [and_assoc]

/-- C2: every product entering the notification batch is classified sealed
(`is_sealed`: a sealed keyword and no ignore keyword in the lowercased
name) and in stock (`looks_in_stock`: no out-of-stock phrase in the
lowercased name). -/
theorem claim_C2 (dist : Coord → ℚ) (env : String → Except String Soup) (now : ℤ)
    (seenFile : Option (List Char)) (lastSent : Option ℤ) (sp : String × Product) :
    sp ∈ (run dist env now seenFile lastSent).notifications →
      is_sealed sp.2.name = true ∧ looks_in_stock sp.2.name = true := by
  intro h
  rw [run_notifications] at h
  have h1 := List.mem_filter.mp h
  refine ⟨runPairs_sealed dist env sp h1.1, ?_⟩
  have h2 := h1.2
  unfold notifPred at h2
  exact (Bool.and_eq_true _ _ |>.mp h2).1

theorem claim_C2_witness :
    is_sealed "Pokemon Booster Box" = true ∧
    looks_in_stock "Pokemon Booster Box" = true :=
  claim_C2 (fun _ => 0) envW 0 none none
    ("Smyths Toys",
      { name := "Pokemon Booster Box", price := "Price unavailable",
        link := "https://www.smythstoys.com/p" })
    (by decide)

/-- C3: `send_discord_embeds` POSTs only when `can_send_discord` allows it
(last-sent file absent, or at least `DISCORD_COOLDOWN_SECONDS = 1800`
seconds elapsed since the recorded timestamp), records the current time
whenever it POSTs, and consequently any two POSTs of a trace of calls are
at least 1800 seconds apart. -/
theorem claim_C3 :
    (∀ (now : ℤ) (lastSent : Option ℤ) (embeds : List Embed),
        (send_discord_embeds now lastSent embeds).1 ≠ none →
          can_send_discord now lastSent = true ∧
          (send_discord_embeds now lastSent embeds).1 = some embeds ∧
          (send_discord_embeds now lastSent embeds).2 = some now) ∧
    (∀ (now last : ℤ),
        can_send_discord now (some last) = true ↔
          now - last ≥ DISCORD_COOLDOWN_SECONDS) ∧
    (∀ (now : ℤ), can_send_discord now none = true) ∧
    DISCORD_COOLDOWN_SECONDS = 1800 ∧
    (∀ (st : Option ℤ) (events : List (ℤ × List Embed)),
        (runTrace st events).Pairwise
          (fun a b => a + DISCORD_COOLDOWN_SECONDS ≤ b)) := by
  refine ⟨?_, ?_, fun now => rfl, rfl, fun st events => runTrace_pairwise events st⟩
  · intro now lastSent embeds h
    by_cases hc : can_send_discord now lastSent = true
    · simp [send_discord_embeds, hc]
    · simp [send_discord_embeds, hc] at h
  · intro now last
    simp [can_send_discord]

theorem claim_C3_witness :
    can_send_discord 2000 (some 100) = true ∧
    (send_discord_embeds 2000 (some 100) []).1 = some [] ∧
    (send_discord_embeds 2000 (some 100) []).2 = some 2000 :=
  claim_C3.1 2000 (some 100) [] (by decide)

/-- C4: the set handed to `save_seen_items` at the end of a run is exactly
the loaded seen set united with the identifiers of this run's new
notifications, hence a superset of the loaded set: no identifier is
removed. -/
theorem claim_C4 (dist : Coord → ℚ) (env : String → Except String Soup) (now : ℤ)
    (seenFile : Option (List Char)) (lastSent : Option ℤ) :
    (run dist env now seenFile lastSent).updatedSeen =
      load_seen_items seenFile ∪
        (((run dist env now seenFile lastSent).notifications).map uidOf).toFinset ∧
    load_seen_items seenFile ⊆ (run dist env now seenFile lastSent).updatedSeen ∧
    (run dist env now seenFile lastSent).savedSeen =
      save_seen_items ((run dist env now seenFile lastSent).updatedSeen) := by
  refine ⟨run_updatedSeen dist env now seenFile lastSent, ?_,
    run_savedSeen dist env now seenFile lastSent⟩
  rw [run_updatedSeen]
  exact Finset.subset_union_left

lemma run_notifications_ne_isEmpty (dist : Coord → ℚ) (env : String → Except String Soup)
    (now : ℤ) (seenFile : Option (List Char)) (lastSent : Option ℤ)
    (h : (run dist env now seenFile lastSent).notifications ≠ []) :
    (run dist env now seenFile lastSent).notifications.isEmpty = false := by
  cases hl : (run dist env now seenFile lastSent).notifications.isEmpty
  · rfl
  · exact absurd (List.isEmpty_iff.mp hl) h

/-- With at least one notification, the embeds `run` builds are the summary
plus the grouped rendering of the first 50 notifications. -/
lemma run_embeds_spec (dist : Coord → ℚ) (env : String → Except String Soup)
    (now : ℤ) (seenFile : Option (List Char)) (lastSent : Option ℤ)
    (h : (run dist env now seenFile lastSent).notifications ≠ []) :
    (run dist env now seenFile lastSent).embeds =
      specEmbedsAmended ((run dist env now seenFile lastSent).notifications) := by
  rw [run_embeds, run_notifications_ne_isEmpty dist env now seenFile lastSent h]
  rw [if_neg (by simp)]
  exact buildEmbeds_eq _

/-- Whatever `run` POSTs is exactly its embeds list. -/
lemma run_posted_payload (dist : Coord → ℚ) (env : String → Except String Soup)
    (now : ℤ) (seenFile : Option (List Char)) (lastSent : Option ℤ) :
    ∀ payload, (run dist env now seenFile lastSent).posted = some payload →
      payload = (run dist env now seenFile lastSent).embeds := by
  intro payload hp
  rw [run_posted] at hp
  split at hp
  · exact absurd hp (by simp)
  · unfold send_discord_embeds at hp
    by_cases hc : can_send_discord now lastSent = true
    · rw [if_pos hc] at hp
      simp only [Option.some.injEq] at hp
      exact hp.symm
    · rw [if_neg hc] at hp
      exact absurd hp (by simp)

/-- C5 counterexample: with 51 new items from one store, the embeds `run`
builds are NOT the summary plus one embed per store listing all of that
store's new items — the per-store rendering is cut at 50 items. -/
theorem claim_C5_counterexample :
    (run (fun _ => 0) env51 0 none none).notifications ≠ [] ∧
    (run (fun _ => 0) env51 0 none none).embeds ≠
      specEmbedsC5 ((run (fun _ => 0) env51 0 none none).notifications) :=
  ⟨by decide, by decide⟩

/-- C5 (amended): when there is at least one new item, the batched message
payload is a summary embed whose description states the total number of new
items, followed by exactly one embed per store appearing among the FIRST 50
notifications, each listing that store's items among the first 50, grouped
and coloured per store; and any POST performed carries exactly this embeds
list. -/
theorem claim_C5 (dist : Coord → ℚ) (env : String → Except String Soup)
    (now : ℤ) (seenFile : Option (List Char)) (lastSent : Option ℤ)
    (h : (run dist env now seenFile lastSent).notifications ≠ []) :
    (run dist env now seenFile lastSent).embeds =
      specEmbedsAmended ((run dist env now seenFile lastSent).notifications) ∧
    (∀ payload, (run dist env now seenFile lastSent).posted = some payload →
      payload = (run dist env now seenFile lastSent).embeds) :=
  ⟨run_embeds_spec dist env now seenFile lastSent h,
   run_posted_payload dist env now seenFile lastSent⟩

theorem claim_C5_witness :
    (run (fun _ => 0) envW 0 none none).embeds =
      specEmbedsAmended ((run (fun _ => 0) envW 0 none none).notifications) ∧
    (∀ payload, (run (fun _ => 0) envW 0 none none).posted = some payload →
      payload = (run (fun _ => 0) envW 0 none none).embeds) :=
  claim_C5 (fun _ => 0) envW 0 none none (by decide)

/-- C6: an offline store whose distance oracle exceeds its configured
radius (default 30) yields `(store, [])` with no fetch attempted; an
offline store within its radius, and every online store, has its parser run
on the fetched page, with exactly one fetch of its URL attempted. -/
theorem claim_C6 (dist : Coord → ℚ) (env : String → Except String Soup)
    (store : String) (cfg : StoreCfg) (c : Coord) :
    (cfg.online = false → cfg.coord = some c →
      within_distance dist c (cfg.radius.getD DEFAULT_RADIUS_MILES) = false →
      fetch_store dist env store cfg = ((store, []), [])) ∧
    (cfg.online = false → cfg.coord = some c →
      within_distance dist c (cfg.radius.getD DEFAULT_RADIUS_MILES) = true →
      fetch_store dist env store cfg =
        ((store, safe_parse (runParserE cfg.parserKind cfg.url (env cfg.url))),
          [cfg.url])) ∧
    (cfg.online = true →
      fetch_store dist env store cfg =
        ((store, safe_parse (runParserE cfg.parserKind cfg.url (env cfg.url))),
          [cfg.url])) := by
  refine ⟨?_, ?_, ?_⟩
  · intro h1 h2 h3
    simp [fetch_store, h1, h2, h3]
  · intro h1 h2 h3
    simp [fetch_store, h1, h2, h3]
  · intro h1
    simp [fetch_store, h1]

theorem claim_C6_witness :
    fetch_store (fun _ => 26) (fun _ => Except.error "offline") "Smyths Toys"
      { url := "https://www.smythstoys.com/uk/en-gb/search/?text=pokemon",
        coord := some (53552/1000, -(1128/1000)), radius := some 25,
        parserKind := ParserKind.smyths } = (("Smyths Toys", []), []) ∧
    fetch_store (fun _ => 26) (fun _ => Except.error "offline") "Amazon UK"
      { url := "https://www.amazon.co.uk/s?k=pokemon+tcg",
        parserKind := ParserKind.generic, online := true } =
      (("Amazon UK",
        safe_parse (runParserE ParserKind.generic
          "https://www.amazon.co.uk/s?k=pokemon+tcg" (Except.error "offline"))),
        ["https://www.amazon.co.uk/s?k=pokemon+tcg"]) :=
  ⟨(claim_C6 (fun _ => 26) (fun _ => Except.error "offline") "Smyths Toys"
      { url := "https://www.smythstoys.com/uk/en-gb/search/?text=pokemon",
        coord := some (53552/1000, -(1128/1000)), radius := some 25,
        parserKind := ParserKind.smyths } (53552/1000, -(1128/1000))).1
      rfl rfl (by decide),
   (claim_C6 (fun _ => 26) (fun _ => Except.error "offline") "Amazon UK"
      { url := "https://www.amazon.co.uk/s?k=pokemon+tcg",
        parserKind := ParserKind.generic, online := true } (0, 0)).2.2 rfl⟩

/-- C7: a run is a single batch pass with no retry: `safe_parse` maps any
exception to the empty product list, every store still contributes its
entry to the results in order after any failure, a failing fetch yields the
empty product list for that store, and each URL is fetched at most once per
invocation. -/
theorem claim_C7 (dist : Coord → ℚ) (env : String → Except String Soup) (now : ℤ)
    (seenFile : Option (List Char)) (lastSent : Option ℤ) :
    (∀ e : String, safe_parse (Except.error e) = []) ∧
    ((runResults dist env).map (fun r => r.1.1) = STORES.map Prod.fst) ∧
    (∀ (sc : String × StoreCfg) (e : String), env sc.2.url = Except.error e →
      (fetch_store dist env sc.1 sc.2).1.2 = []) ∧
    (∀ url : String, ((run dist env now seenFile lastSent).queries).count url ≤ 1) := by
  refine ⟨fun e => rfl, ?_, fun sc e h => fetch_store_error dist env sc.1 sc.2 e h, ?_⟩
  · unfold runResults
    rw [List.map_map]
    apply List.map_congr_left
    intro sc _
    exact fetch_store_fst dist env sc.1 sc.2
  · intro url
    have hq : (run dist env now seenFile lastSent).queries =
        ((runResults dist env).map (fun r => r.2)).flatten := rfl
    rw [hq]
    have hsub : (((runResults dist env).map (fun r => r.2)).flatten).Sublist
        (STORES.map (fun sc => sc.2.url)) := by
      unfold runResults
      rw [List.map_map]
      exact flatten_map_sublist STORES _ _
        (fun sc => fetch_store_queries dist env sc.1 sc.2)
    have hnd : (STORES.map (fun sc => sc.2.url)).Nodup := by decide
    exact le_trans (hsub.count_le url) (List.nodup_iff_count_le_one.mp hnd url)

theorem claim_C7_witness :
    safe_parse (Except.error "boom") = [] ∧
    (fetch_store (fun _ => 0) (fun _ => Except.error "boom") "Amazon UK"
      { url := "https://www.amazon.co.uk/s?k=pokemon+tcg",
        parserKind := ParserKind.generic, online := true }).1.2 = [] :=
  ⟨(claim_C7 (fun _ => 0) (fun _ => Except.error "boom") 0 none none).1 "boom",
   (claim_C7 (fun _ => 0) (fun _ => Except.error "boom") 0 none none).2.2.1
     ("Amazon UK",
      { url := "https://www.amazon.co.uk/s?k=pokemon+tcg",
        parserKind := ParserKind.generic, online := true }) "boom" rfl⟩

/-- C8: when a run finds more than 50 new items, the per-store embeds
render only the first 50 notifications (this is what `specEmbedsAmended`
says), the summary embed still reports the full count, and every new item
(including those beyond the first 50) is added to the seen set that is
persisted. -/
theorem claim_C8 (dist : Coord → ℚ) (env : String → Except String Soup) (now : ℤ)
    (seenFile : Option (List Char)) (lastSent : Option ℤ)
    (h : 50 < (run dist env now seenFile lastSent).notifications.length) :
    (run dist env now seenFile lastSent).embeds =
      specEmbedsAmended ((run dist env now seenFile lastSent).notifications) ∧
    ((run dist env now seenFile lastSent).embeds.head? =
      some (summaryEmbed ((run dist env now seenFile lastSent).notifications.length))) ∧
    (∀ sp ∈ (run dist env now seenFile lastSent).notifications,
      uidOf sp ∈ (run dist env now seenFile lastSent).updatedSeen) := by
  have hne : (run dist env now seenFile lastSent).notifications ≠ [] := by
    intro hnil
    rw [hnil] at h
    simp at h
  refine ⟨run_embeds_spec dist env now seenFile lastSent hne, ?_, ?_⟩
  · rw [run_embeds_spec dist env now seenFile lastSent hne]
    rfl
  · intro sp hsp
    rw [run_updatedSeen]
    exact Finset.mem_union_right _ (List.mem_toFinset.mpr (List.mem_map_of_mem uidOf hsp))

theorem claim_C8_witness :
    50 < (run (fun _ => 0) env51 0 none none).notifications.length ∧
    ((run (fun _ => 0) env51 0 none none).embeds =
      specEmbedsAmended ((run (fun _ => 0) env51 0 none none).notifications) ∧
    ((run (fun _ => 0) env51 0 none none).embeds.head? =
      some (summaryEmbed ((run (fun _ => 0) env51 0 none none).notifications.length))) ∧
    (∀ sp ∈ (run (fun _ => 0) env51 0 none none).notifications,
      uidOf sp ∈ (run (fun _ => 0) env51 0 none none).updatedSeen)) :=
  ⟨by decide, claim_C8 (fun _ => 0) env51 0 none none (by decide)⟩

/-- C9 counterexample: a run whose webhook POST is suppressed by the
cooldown persists the identifier of a product whose name contains a
newline, yet the very same product triggers a notification again in a later
run started from the saved file — "can never trigger a notification in any
later run" is false as stated. -/
theorem claim_C9_counterexample :
    can_send_discord 100 (some 0) = false ∧
    (run (fun _ => 0) envNl 100 none (some 0)).posted = none ∧
    "Smyths Toys:pokemon\nbooster" ∈
      ((run (fun _ => 0) envNl 100 none (some 0)).notifications).map uidOf ∧
    "Smyths Toys:pokemon\nbooster" ∈
      ((run (fun _ => 0) envNl 5000
        (some ((run (fun _ => 0) envNl 100 none (some 0)).savedSeen))
        (some 0)).notifications).map uidOf :=
  ⟨by decide, by decide, by decide, by decide⟩

/-- C9 (amended): when the cooldown suppresses the POST, `run` sends
nothing yet still adds every new identifier to the persisted seen set; any
such item whose identifier contains no newline and no carriage return and
carries no leading or trailing whitespace can never trigger a notification
in a later run that starts from the saved file. -/
theorem claim_C9 (dist : Coord → ℚ) (env : String → Except String Soup) (now : ℤ)
    (seenFile : Option (List Char)) (lastSent : Option ℤ)
    (hc : can_send_discord now lastSent = false) :
    (run dist env now seenFile lastSent).posted = none ∧
    (∀ sp ∈ (run dist env now seenFile lastSent).notifications,
      uidOf sp ∈ (run dist env now seenFile lastSent).updatedSeen) ∧
    (∀ sp ∈ (run dist env now seenFile lastSent).notifications,
      '\n' ∉ (uidOf sp).data → '\r' ∉ (uidOf sp).data →
      pyStrip (uidOf sp).data = (uidOf sp).data →
      ∀ (dist2 : Coord → ℚ) (env2 : String → Except String Soup) (now2 : ℤ)
        (lastSent2 : Option ℤ) (sp2 : String × Product),
        sp2 ∈ (run dist2 env2 now2
          (some ((run dist env now seenFile lastSent).savedSeen))
          lastSent2).notifications →
        uidOf sp2 ≠ uidOf sp) := by
  refine ⟨?_, ?_, ?_⟩
  · rw [run_posted]
    split
    · rfl
    · simp [send_discord_embeds, hc]
  · intro sp hsp
    rw [run_updatedSeen]
    exact Finset.mem_union_right _ (List.mem_toFinset.mpr (List.mem_map_of_mem uidOf hsp))
  · intro sp hsp hnl hcr hstrip dist2 env2 now2 lastSent2 sp2 hsp2
    have hmem : uidOf sp ∈ (run dist env now seenFile lastSent).updatedSeen := by
      rw [run_updatedSeen]
      exact Finset.mem_union_right _ (List.mem_toFinset.mpr (List.mem_map_of_mem uidOf hsp))
    have hsaved : uidOf sp ∈
        load_seen_items (some ((run dist env now seenFile lastSent).savedSeen)) := by
      rw [run_savedSeen]
      exact mem_load_save _ _ hmem hnl hcr hstrip
    rw [run_notifications] at hsp2
    have h2 := (List.mem_filter.mp hsp2).2
    unfold notifPred at h2
    intro heq
    rw [heq] at h2
    simp [hsaved] at h2

theorem claim_C9_witness :
    (run (fun _ => 0) envW 100 none (some 0)).posted = none ∧
    uidOf ("Amazon UK",
      ({ name := "pokemon tin one", price := "Check website",
         link := "https://x/q" } : Product)) ≠
      uidOf ("Smyths Toys",
        ({ name := "Pokemon Booster Box", price := "Price unavailable",
           link := "https://www.smythstoys.com/p" } : Product)) :=
  ⟨(claim_C9 (fun _ => 0) envW 100 none (some 0) (by decide)).1,
   (claim_C9 (fun _ => 0) envW 100 none (some 0) (by decide)).2.2
     ("Smyths Toys",
      { name := "Pokemon Booster Box", price := "Price unavailable",
        link := "https://www.smythstoys.com/p" })
     (by decide) (by decide) (by decide) (by decide)
     (fun _ => 0) envT 0 none
     ("Amazon UK",
      { name := "pokemon tin one", price := "Check website", link := "https://x/q" })
     (by decide)⟩

/-- C10 counterexample: the singleton of a string with an interior carriage
return satisfies the claim's hypotheses — it contains no newline and no
leading or trailing whitespace — yet does not round-trip: the text-mode
read splits the saved line at the carriage return. -/
theorem claim_C10_counterexample :
    '\n' ∉ ("a\rb" : String).data ∧
    pyStrip ("a\rb" : String).data = ("a\rb" : String).data ∧
    load_seen_items (some (save_seen_items {"a\rb"})) ≠ ({"a\rb"} : Finset String) :=
  ⟨by decide, by decide, by decide⟩

/-- C10 (amended): persistence round-trips for a finite set of strings each
free of newlines, free of carriage returns, and with no leading or trailing
whitespace: loading immediately after saving returns exactly the same
set. -/
theorem claim_C10 (S : Finset String)
    (h : ∀ x ∈ S, '\n' ∉ x.data ∧ '\r' ∉ x.data ∧ pyStrip x.data = x.data) :
    load_seen_items (some (save_seen_items S)) = S :=
  load_save_of_clean S h

theorem claim_C10_witness :
    load_seen_items (some (save_seen_items
      {"Amazon UK:pokemon etb", "CEX:pokemon tin"})) =
      {"Amazon UK:pokemon etb", "CEX:pokemon tin"} :=
  claim_C10 {"Amazon UK:pokemon etb", "CEX:pokemon tin"} (by decide)
